import Mathlib

/-!
# Verification of the deep-search fetch pipeline (src/index.ts)

Shallow embedding of the pipeline in `src/index.ts`: the retry/backoff loop
(`fetchWithRetry`), the per-URL fetch (`fetchUrl`), the windowed batch fetch
(`fetchAllUrls`), the report assembler (`formatResponse`) and the query builder
of the `deep_search` tool handler.  Network effects are modelled by explicit
oracles: an attempt oracle maps each attempt number to the outcome of that
HTTP attempt, and the external content extractors (Readability / cheerio) are
modelled as opaque-to-us string functions supplied in an environment record.
JavaScript strings are modelled as Lean `String`s (one `Char` per code unit).
-/

set_option autoImplicit false

namespace DeepSearch

/-- `SearchResult` record of src/index.ts. -/
structure SearchResult where
  title : String
  link : String
  snippet : String
  position : Nat
  date : Option String
  deriving DecidableEq, Repr

/-- `FetchedContent` record of src/index.ts (the spec's FetchOutcome).
`error`/`wordCount` are optional fields, so `Option` here. -/
structure FetchedContent where
  url : String
  title : String
  content : String
  success : Bool
  error : Option String
  wordCount : Option Nat
  deriving DecidableEq, Repr

/-- Outcome of one underlying `fetch(url, …)` attempt: either an HTTP
response with a status code and a body, or a thrown error (network failure or
abort) carrying the error message. -/
inductive AttemptResult where
  | response (statusCode : Nat) (body : String)
  | failure (msg : String)
  deriving DecidableEq, Repr

/-- `response.ok` of the fetch API: status in [200, 299]. -/
def respOk (code : Nat) : Bool := 200 ≤ code && code ≤ 299

/-- `leadsWith needle hay`: `hay` starts with `needle`. -/
def leadsWith : List Char → List Char → Bool
  | [], _ => true
  | _ :: _, [] => false
  | c :: n, d :: h => c == d && leadsWith n h

/-- `occursChars needle hay`: `needle` occurs as a contiguous run in `hay`. -/
def occursChars (needle : List Char) : List Char → Bool
  | [] => needle.isEmpty
  | d :: h => leadsWith needle (d :: h) || occursChars needle h

/-- JavaScript `msg.includes("timeout")` (substring test). -/
def containsTimeout (msg : String) : Bool := occursChars "timeout".data msg.data

/-- What the `try` block of one loop iteration of `fetchWithRetry` does with
the attempt's outcome: return the response, complete normally after setting
`lastError` (retryable status), or throw (which the `catch` then receives).
Note `throw new Error(..)` for non-429 4xx statuses happens inside the `try`,
so it is modelled as `threw`, to be handled by the same iteration's catch. -/
inductive TryOutcome where
  | returned (body : String)
  | completed (lastError : String)
  | threw (msg : String)
  deriving DecidableEq, Repr

/-- One iteration's `try` block of `fetchWithRetry` (src/index.ts lines
155-175). -/
def tryBody : AttemptResult → TryOutcome
  | .response code body =>
    if respOk code then .returned body
    else if 400 ≤ code && code < 500 && code != 429 then
      .threw ("HTTP " ++ toString code)
    else .completed ("HTTP " ++ toString code)
  | .failure msg => .threw msg

/-- End state of a `fetchWithRetry` call: a returned response body, or a
thrown error message. -/
inductive RetryResult where
  | ok (body : String)
  | thrown (msg : String)
  deriving DecidableEq, Repr

/-- Observable trace of a `fetchWithRetry` call: the returned body or thrown
error message, how many fetch attempts were made, and the list of backoff
delays (in ms) that were awaited, in order. -/
structure RetryTrace where
  result : RetryResult
  attemptsMade : Nat
  delays : List Nat
  deriving DecidableEq, Repr

/-- The backoff step at the end of a loop iteration (src/index.ts lines
186-189): a delay of `baseDelay * 2 ^ attempt` is awaited iff another
iteration is still to come. -/
def stepDelay (maxRetries baseDelay attempt : Nat) : List Nat :=
  if attempt < maxRetries - 1 then [baseDelay * 2 ^ attempt] else []

/-- The retry loop of `fetchWithRetry` (src/index.ts lines 154-192), with
fuel `remaining = maxRetries - attempt` making the `for` loop structural.
On `threw`, the `catch` body sets `lastError` and rethrows iff the message
contains "timeout"; otherwise the loop falls through to the backoff step. -/
def fetchWithRetryGo (attempts : Nat → AttemptResult) (maxRetries baseDelay : Nat) :
    Nat → Nat → Option String → RetryTrace
  | 0, attempt, lastError =>
    ⟨.thrown (lastError.getD "Max retries exceeded"), attempt, []⟩
  | remaining + 1, attempt, _ =>
    match tryBody (attempts attempt) with
    | .returned body => ⟨.ok body, attempt + 1, []⟩
    | .completed msg =>
      let rest := fetchWithRetryGo attempts maxRetries baseDelay remaining (attempt + 1) (some msg)
      ⟨rest.result, rest.attemptsMade, stepDelay maxRetries baseDelay attempt ++ rest.delays⟩
    | .threw msg =>
      if containsTimeout msg then ⟨.thrown msg, attempt + 1, []⟩
      else
        let rest := fetchWithRetryGo attempts maxRetries baseDelay remaining (attempt + 1) (some msg)
        ⟨rest.result, rest.attemptsMade, stepDelay maxRetries baseDelay attempt ++ rest.delays⟩

/-- `fetchWithRetry(url, maxRetries = 3, baseDelay = 1000)` of src/index.ts.
The URL is abstracted away: `attempts` is this URL's attempt oracle. -/
def fetchWithRetry (attempts : Nat → AttemptResult) (maxRetries : Nat := 3)
    (baseDelay : Nat := 1000) : RetryTrace :=
  fetchWithRetryGo attempts maxRetries baseDelay maxRetries 0 none

/-! ## Word count: `text.split(/\s+/).length` -/

/-- The pieces produced by JavaScript `text.split(/\s+/)`, scanning the
characters left to right.  `inWs` records whether the scanner is inside a
maximal whitespace run (whose piece boundary has already been emitted);
`acc` holds the characters of the current piece in reverse.  A new (possibly
empty) piece is emitted at the start of every whitespace run and at the end
of the string, so `"".split` is `[""]`, `" a ".split` is `["", "a", ""]`. -/
def jsPieces : List Char → Bool → List Char → List (List Char)
  | [], _, acc => [acc.reverse]
  | c :: rest, inWs, acc =>
    if c.isWhitespace then
      if inWs then jsPieces rest true acc
      else acc.reverse :: jsPieces rest true []
    else jsPieces rest false (c :: acc)

/-- `text.split(/\s+/).length` of src/index.ts line 213. -/
def wordCountJS (s : String) : Nat := (jsPieces s.data false []).length

/-- Piece count of the JavaScript whitespace split, tracked directly
(one more than the number of maximal whitespace runs). -/
def pieceCount : List Char → Bool → Nat
  | [], _ => 1
  | c :: rest, inWs =>
    if c.isWhitespace then (if inWs then 0 else 1) + pieceCount rest true
    else pieceCount rest false

/-- Number of maximal non-whitespace runs; `inTok` records whether the
scanner is inside such a run. -/
def tokenCountGo : List Char → Bool → Nat
  | [], _ => 0
  | c :: rest, inTok =>
    if c.isWhitespace then tokenCountGo rest false
    else (if inTok then 0 else 1) + tokenCountGo rest true

/-- Modelled from the spec's words: "the number of whitespace-separated
tokens of the extracted text" — the number of maximal non-whitespace runs. -/
def specTokenCount (s : String) : Nat := tokenCountGo s.data false

/-- First character exists and is not whitespace. -/
def headNonWs (s : String) : Bool :=
  match s.data with
  | [] => false
  | c :: _ => !c.isWhitespace

/-- Last character exists and is not whitespace. -/
def lastNonWs (l : List Char) : Bool :=
  match l.getLast? with
  | some c => !c.isWhitespace
  | none => false

/-- `lastNonWs` version on strings. -/
def lastNonWsStr (s : String) : Bool := lastNonWs s.data

/-! ## Per-URL fetch: `fetchUrl` -/

/-- JavaScript `s.substring(0, n)`: the first `n` characters. -/
def jsSubstring (s : String) (n : Nat) : String := String.mk (s.data.take n)

/-- The truncation marker appended by both `fetchUrl` and `formatResponse`. -/
def truncMarker : String := "\n\n[Content truncated...]"

/-- Environment of one URL's fetch: the attempt oracle of its underlying
HTTP fetches, and the external extraction collaborators of src/index.ts —
the cheerio title lookup (lines 202-207) and the Readability/cheerio article
extraction (`extractContentWithReadability`, lines 85-103), each a black-box
function from the response HTML (and, for the article text, the URL). -/
structure FetchEnv where
  attempts : Nat → AttemptResult
  titleOf : String → String
  extractOf : String → String → String

/-- `fetchUrl(url, maxLength = 100000)` of src/index.ts lines 196-225:
fetch with retry; on success extract title and text, record the word count
of the text before truncating it to `maxLength`; any thrown error is caught
and becomes a failure record with empty title/content. -/
def fetchUrl (env : FetchEnv) (url : String) (maxLength : Nat := 100000) :
    FetchedContent :=
  match (fetchWithRetry env.attempts).result with
  | .ok html =>
    let title := env.titleOf html
    let text := env.extractOf html url
    let wordCount := wordCountJS text
    let text' := if text.length > maxLength then jsSubstring text maxLength ++ truncMarker
                 else text
    ⟨url, title, text', true, none, some wordCount⟩
  | .thrown msg => ⟨url, "", "", false, some msg, none⟩

/-! ## Batch fetch: `fetchAllUrls` -/

/-- Result of `Promise.allSettled` for one element: the promise either
fulfilled with a value or rejected.  `fetchUrl` never rejects (it catches
every error), but the code handles rejection, so the model does too. -/
inductive Settled (α : Type) where
  | fulfilled (value : α)
  | rejected
  deriving DecidableEq, Repr

/-- How `fetchAllUrls` turns one settled promise into the slot of its URL
(src/index.ts lines 238-251): the fulfilled value, or a synthesized failure
record for a rejected promise. -/
def settleSlot (u : String) : Settled FetchedContent → FetchedContent
  | .fulfilled v => v
  | .rejected => ⟨u, "", "", false, some "Promise rejected", none⟩

/-- Placeholder used only as the default of `List.getD` in statements. -/
def dummyFetched : FetchedContent := ⟨"", "", "", false, none, none⟩

/-- `fetchAllUrls(urls, concurrency = 5)` of src/index.ts lines 227-255:
the URL list is processed in consecutive windows of `concurrency`; each
window's fetches are settled and written to their global indices, in order.
`settle` is the oracle giving each URL's settled promise.  The JavaScript
`for` loop does not terminate when `concurrency = 0` (`i += 0`); the model
is faithful for `concurrency ≥ 1` (the spec's contract) and returns `[]`
otherwise. -/
def fetchAllUrls (settle : String → Settled FetchedContent) (concurrency : Nat) :
    (urls : List String) → List FetchedContent
  | urls =>
    if h : urls = [] ∨ concurrency = 0 then []
    else
      (urls.take concurrency).map (fun u => settleSlot u (settle u)) ++
        fetchAllUrls settle concurrency (urls.drop concurrency)
  termination_by urls => urls.length
  decreasing_by
    push_neg at h
    show (urls.drop concurrency).length < urls.length
    have : urls.length ≠ 0 := fun hl => h.1 (List.eq_nil_of_length_eq_zero hl)
    rw [List.length_drop]
    omega

/-- The settle oracle the `deep_search` handler actually uses: every promise
fulfills with `fetchUrl` of that URL (src/index.ts line 236). -/
def settleOf (env : String → FetchEnv) (u : String) : Settled FetchedContent :=
  .fulfilled (fetchUrl (env u) u)

/-! ## Report assembler: `formatResponse` -/

/-- `fetchedContents.filter((c) => c.success).length` (src/index.ts line 264). -/
def successCount (fetchedContents : List FetchedContent) : Nat :=
  (fetchedContents.filter (·.success)).length

/-- `fetchedContents.reduce((sum, c) => sum + (c.wordCount || 0), 0)`
(src/index.ts line 265).  `c.wordCount || 0` is `getD 0` (a recorded word
count of `0` is also falsy, but `0 || 0` is still `0`). -/
def totalWords (fetchedContents : List FetchedContent) : Nat :=
  fetchedContents.foldl (fun sum c => sum + c.wordCount.getD 0) 0

/-- Comma-grouping pass of `Number.prototype.toLocaleString()` (en-US
default locale), over the reversed digit list: a comma is placed after every
three digits, counted by the fuel `k`, and never trails. -/
def groupGo : List Char → Nat → List Char
  | [], _ => []
  | c :: rest, k + 1 => c :: groupGo rest k
  | c :: rest, 0 => ',' :: c :: groupGo rest 2

/-- `totalWords.toLocaleString()` of src/index.ts line 270: decimal digits
grouped in threes by commas. -/
def localeString (n : Nat) : String :=
  String.mk ((groupGo (toString n).data.reverse 3).reverse)

/-- The `**Date:** …` line, emitted only when the result has a date
(src/index.ts lines 279-281). -/
def dateLine : Option String → String
  | some d => "**Date:** " ++ d ++ "\n"
  | none => ""

/-- Lines 277-282 of src/index.ts: numbering, title, URL, optional date and
the closing blank line of one result's section. -/
def sectionHeader (i : Nat) (search : SearchResult) : String :=
  "## " ++ toString (i + 1) ++ ". " ++ search.title ++ "\n" ++
  "**URL:** " ++ search.link ++ "\n" ++ dateLine search.date ++ "\n"

/-- Lines 285-288 of src/index.ts: the content emitted for a successful
fetch — truncated to `maxContentPerPage` characters plus the marker iff it
is longer than that. -/
def displayedContent (content : String) (maxContentPerPage : Nat) : String :=
  if content.length > maxContentPerPage then
    jsSubstring content maxContentPerPage ++ truncMarker
  else content

/-- Lines 291-292 of src/index.ts: the inline failure notice plus the search
snippet fallback. -/
def failureNotice (err snippet : String) : String :=
  "*Could not fetch content: " ++ err ++ "*\n\n" ++
  "**Search Snippet:** " ++ snippet ++ "\n\n"

/-- Lines 284-293 of src/index.ts: the variable part of one result's
section.  `fetched?.success && fetched.content` needs a present, successful
record with nonempty content; otherwise `fetched?.error` must be present and
truthy (nonempty) for the failure notice; otherwise nothing is emitted. -/
def sectionBody (search : SearchResult) (fetched : Option FetchedContent)
    (maxContentPerPage : Nat) : String :=
  match fetched with
  | some f =>
    if f.success && f.content != "" then
      "### Full Page Content:\n\n" ++ displayedContent f.content maxContentPerPage ++ "\n\n"
    else
      match f.error with
      | some e => if e != "" then failureNotice e search.snippet else ""
      | none => ""
  | none => ""

/-- One iteration of the result loop (src/index.ts lines 273-296). -/
def resultSection (i : Nat) (search : SearchResult) (fetched : Option FetchedContent)
    (maxContentPerPage : Nat) : String :=
  sectionHeader i search ++ sectionBody search fetched maxContentPerPage ++ "---\n\n"

/-- Concatenation of a list of strings, in order (the `response +=` loop). -/
def concatAll : List String → String
  | [] => ""
  | s :: rest => s ++ concatAll rest

/-- The `**Results:** … found, … pages fetched successfully` header line
(src/index.ts line 269). -/
def resultsLine (numFound numFetched : Nat) : String :=
  "**Results:** " ++ toString numFound ++ " found, " ++ toString numFetched ++
  " pages fetched successfully\n"

/-- Default used with `List.getD` over the search results (the loop index
never exceeds `searchResults.length`, so it is never read). -/
def dummySearch : SearchResult := ⟨"", "", "", 0, none⟩

/-- `formatResponse(query, searchResults, fetchedContents, maxContentPerPage,
searchType)` of src/index.ts lines 257-299.  The search type is interpolated
into the header as a string, so it is a `String` here. -/
def formatResponse (query : String) (searchResults : List SearchResult)
    (fetchedContents : List FetchedContent) (maxContentPerPage : Nat)
    (searchType : String) : String :=
  "# Deep Search Results for: \"" ++ query ++ "\"\n\n" ++
  "**Search Type:** " ++ searchType ++ "\n" ++
  resultsLine searchResults.length (successCount fetchedContents) ++
  "**Total Content:** ~" ++ localeString (totalWords fetchedContents) ++ " words\n\n" ++
  "---\n\n" ++
  concatAll ((List.range searchResults.length).map fun i =>
    resultSection i (searchResults.getD i dummySearch) fetchedContents[i]? maxContentPerPage)

/-! ## Query builder of the `deep_search` tool handler -/

/-- JavaScript truthiness of the optional `include_domains` /
`exclude_domains` string parameters: present and nonempty. -/
def truthyOptStr : Option String → Bool
  | some s => s != ""
  | none => false

/-- `", ".join`-style interleaving: `joinSep sep [a, b, c] = a sep b sep c`
(JavaScript `Array.prototype.join`). -/
def joinSep (sep : String) : List String → String
  | [] => ""
  | [s] => s
  | s :: rest => s ++ sep ++ joinSep sep rest

/-- JavaScript `s.split(sep)` for a one-character separator; `"".split`
yields `[""]`. -/
def splitOnChar (sep : Char) : List Char → List (List Char)
  | [] => [[]]
  | c :: rest =>
    if c == sep then [] :: splitOnChar sep rest
    else
      match splitOnChar sep rest with
      | p :: ps => (c :: p) :: ps
      | [] => [[c]]

/-- `include_domains.split(",")` of src/index.ts lines 351/355. -/
def jsSplitComma (s : String) : List String :=
  (splitOnChar ',' s.data).map String.mk

/-- JavaScript `d.trim()`: strip whitespace from both ends. -/
def jsTrim (s : String) : String :=
  String.mk (((s.data.dropWhile Char.isWhitespace).reverse.dropWhile
    Char.isWhitespace).reverse)

/-- The query-building preamble of the `deep_search` handler (src/index.ts
lines 349-357): append `OR`-joined `site:` clauses for the comma-separated
include domains (each trimmed), then space-joined `-site:` clauses for the
exclude domains.  An absent or empty parameter is falsy and skipped. -/
def buildQuery (query : String) (includeDomains excludeDomains : Option String) : String :=
  let q1 :=
    if truthyOptStr includeDomains then
      let domains := (jsSplitComma (includeDomains.getD "")).map jsTrim
      query ++ " " ++ joinSep " OR " (domains.map (fun d => "site:" ++ d))
    else query
  if truthyOptStr excludeDomains then
    let domains := (jsSplitComma (excludeDomains.getD "")).map jsTrim
    q1 ++ " " ++ joinSep " " (domains.map (fun d => "-site:" ++ d))
  else q1

/-! ## Lemmas about the batch loop -/

/-- The windowed loop of `fetchAllUrls` fills exactly one slot per input URL,
in input order: for positive `concurrency` it computes the same list as a
plain map over the URLs. -/
theorem fetchAllUrlsBounded (settle : String → Settled FetchedContent)
    (concurrency : Nat) (hc : 0 < concurrency) :
    ∀ (n : Nat) (urls : List String), urls.length ≤ n →
      fetchAllUrls settle concurrency urls =
        urls.map (fun u => settleSlot u (settle u)) := by
  intro n
  induction n with
  | zero =>
    intro urls h
    have hnil : urls = [] := List.eq_nil_of_length_eq_zero (Nat.le_zero.mp h)
    subst hnil
    rw [fetchAllUrls]
    simp
  | succ n ih =>
    intro urls h
    by_cases hu : urls = []
    · subst hu
      rw [fetchAllUrls]
      simp
    · have hcond : ¬(urls = [] ∨ concurrency = 0) := by
        push_neg
        exact ⟨hu, Nat.pos_iff_ne_zero.mp hc⟩
      have hlen : 1 ≤ urls.length := by
        cases urls with
        | nil => exact absurd rfl hu
        | cons a t => simp
      rw [fetchAllUrls, dif_neg hcond, ih (urls.drop concurrency) (by
        rw [List.length_drop]; omega)]
      rw [← List.map_append, List.take_append_drop]

/-- `fetchAllUrls` as a map, for positive concurrency. -/
theorem fetchAllUrls_eq_map (settle : String → Settled FetchedContent)
    (concurrency : Nat) (urls : List String) (hc : 0 < concurrency) :
    fetchAllUrls settle concurrency urls =
      urls.map (fun u => settleSlot u (settle u)) :=
  fetchAllUrlsBounded settle concurrency hc urls.length urls (Nat.le_refl _)

/-- `getD` through a `map`, at an in-range index. -/
theorem getD_map_lt {α β : Type} (f : α → β) (l : List α) (i : Nat) (d : α) (db : β)
    (h : i < l.length) : (l.map f).getD i db = f (l.getD i d) := by
  induction l generalizing i with
  | nil => simp at h
  | cons a t ih =>
    cases i with
    | zero => simp [List.getD]
    | succ j =>
      simp only [List.map_cons, List.getD_cons_succ]
      exact ih j (by simpa using h)

/-- Claim C1: for every input URL list (any length, empty included) and any
behaviour of the settled fetch promises whose fulfilled values carry their
own URL (as `fetchUrl`'s results always do), `fetchAllUrls` returns one
outcome per input URL, and the outcome at every index `i` carries the `i`-th
input URL — a rejected promise yields a synthesized failure record in that
slot, never a missing entry. -/
theorem claim_C1_fetchAll_alignment (settle : String → Settled FetchedContent)
    (concurrency : Nat) (urls : List String) (hc : 0 < concurrency)
    (halign : ∀ u v, settle u = .fulfilled v → v.url = u) :
    (fetchAllUrls settle concurrency urls).length = urls.length ∧
    ∀ i, i < urls.length →
      ((fetchAllUrls settle concurrency urls).getD i dummyFetched).url =
        urls.getD i "" := by
  rw [fetchAllUrls_eq_map settle concurrency urls hc]
  refine ⟨by simp, ?_⟩
  intro i hi
  rw [getD_map_lt _ _ i "" dummyFetched hi]
  cases hs : settle (urls.getD i "") with
  | fulfilled v => simpa [settleSlot] using halign _ v hs
  | rejected => simp [settleSlot]

/-- A settle oracle mixing a rejected promise (for URL "a") and fulfilled
fetches, used to witness claim C1 concretely. -/
def settleMix (u : String) : Settled FetchedContent :=
  if u = "a" then .rejected else .fulfilled ⟨u, "t", "body", true, none, some 1⟩

/-- Witness for claim C1 at a concrete input: two URLs, the first promise
rejected, window size 5. -/
theorem claim_C1_witness :
    (fetchAllUrls settleMix 5 ["a", "b"]).length = 2 ∧
    ((fetchAllUrls settleMix 5 ["a", "b"]).getD 0 dummyFetched).url = "a" ∧
    ((fetchAllUrls settleMix 5 ["a", "b"]).getD 1 dummyFetched).url = "b" := by
  have halign : ∀ u v, settleMix u = .fulfilled v → v.url = u := by
    intro u v h
    by_cases hu : u = "a"
    · simp [settleMix, hu] at h
    · simp only [settleMix, if_neg hu] at h
      cases h
      rfl
  have h := claim_C1_fetchAll_alignment settleMix 5 ["a", "b"] (by decide) halign
  exact ⟨h.1, h.2 0 (by decide), h.2 1 (by decide)⟩

/-- Claim C5: with the real oracle (every promise fulfills with `fetchUrl`),
the batch never propagates a per-URL failure: the slot of URL `i` is exactly
`fetchUrl` of that URL under that URL's own environment — so it depends on
no other URL — and whenever that URL's retry pipeline ends in a thrown
error, the slot is a captured failure record with `success = false`, empty
title and content, and the thrown message as the `error` reason, at the
URL's original index. -/
theorem claim_C5_fetchAll_isolation (env : String → FetchEnv) (concurrency : Nat)
    (urls : List String) (i : Nat) (hc : 0 < concurrency) (hi : i < urls.length) :
    ((fetchAllUrls (settleOf env) concurrency urls).getD i dummyFetched =
      fetchUrl (env (urls.getD i "")) (urls.getD i "")) ∧
    ∀ msg, (fetchWithRetry (env (urls.getD i "")).attempts).result = .thrown msg →
      (fetchAllUrls (settleOf env) concurrency urls).getD i dummyFetched =
        ⟨urls.getD i "", "", "", false, some msg, none⟩ := by
  have h1 : (fetchAllUrls (settleOf env) concurrency urls).getD i dummyFetched =
      fetchUrl (env (urls.getD i "")) (urls.getD i "") := by
    rw [fetchAllUrls_eq_map _ concurrency urls hc, getD_map_lt _ _ i "" dummyFetched hi]
    rfl
  refine ⟨h1, ?_⟩
  intro msg hmsg
  rw [h1]
  unfold fetchUrl
  rw [hmsg]

/-- Environment of a URL whose server answers 404 to every attempt. -/
def env404 : FetchEnv := ⟨fun _ => .response 404 "", fun _ => "", fun _ _ => ""⟩

/-- Environment of a URL whose server answers 200 with a fixed page. -/
def envOkPage : FetchEnv :=
  ⟨fun _ => .response 200 "<html>hi</html>", fun _ => "T", fun _ _ => "hello world"⟩

/-- Per-URL environment used in witnesses: URL "b" always fails with 404,
every other URL succeeds. -/
def envMix (u : String) : FetchEnv := if u = "b" then env404 else envOkPage

/-- Witness for claim C5 at a concrete input: in the batch ["a", "b"], the
failing URL "b" yields a captured failure record at index 1 (while "a"
succeeded), and the record is `fetchUrl` of "b" alone. -/
theorem claim_C5_witness :
    ((fetchAllUrls (settleOf envMix) 5 ["a", "b"]).getD 1 dummyFetched =
      ⟨"b", "", "", false, some "HTTP 404", none⟩) ∧
    ((fetchAllUrls (settleOf envMix) 5 ["a", "b"]).getD 0 dummyFetched).success = true := by
  constructor
  · exact (claim_C5_fetchAll_isolation envMix 5 ["a", "b"] 1 (by decide) (by decide)).2
      "HTTP 404" (by decide)
  · rw [(claim_C5_fetchAll_isolation envMix 5 ["a", "b"] 0 (by decide) (by decide)).1]
    decide

/-! ## Lemmas about the retry loop -/

/-- A 503 response drives the `try` block to its fall-through: `response.ok`
is false, the status is not a non-429 client error, so `lastError` is set
and the iteration completes normally. -/
theorem tryBody_503 (body : String) :
    tryBody (.response 503 body) = .completed "HTTP 503" := rfl

/-- One loop iteration on a 503 response: `lastError` becomes `HTTP 503`,
the backoff step runs, and the loop continues with the next attempt. -/
theorem fetchWithRetryGo_step503 (attempts : Nat → AttemptResult)
    (maxRetries baseDelay r attempt : Nat) (le : Option String) (b : String)
    (hb : attempts attempt = .response 503 b) :
    fetchWithRetryGo attempts maxRetries baseDelay (r + 1) attempt le =
      ⟨(fetchWithRetryGo attempts maxRetries baseDelay r (attempt + 1)
          (some "HTTP 503")).result,
       (fetchWithRetryGo attempts maxRetries baseDelay r (attempt + 1)
          (some "HTTP 503")).attemptsMade,
       stepDelay maxRetries baseDelay attempt ++
         (fetchWithRetryGo attempts maxRetries baseDelay r (attempt + 1)
            (some "HTTP 503")).delays⟩ := by
  conv_lhs => rw [fetchWithRetryGo]
  rw [hb, tryBody_503]

/-- Exhausting the loop on constant 503 responses: starting `remaining`
iterations in at attempt counter `attempt` (with `attempt + remaining =
maxRetries`), the loop makes all remaining attempts, sleeps the exponential
backoff before every non-final attempt, and finally throws the last
`HTTP 503` error. -/
theorem fetchWithRetryGo_all503 (attempts : Nat → AttemptResult)
    (maxRetries baseDelay : Nat) (h : ∀ k, ∃ b, attempts k = .response 503 b) :
    ∀ (remaining attempt : Nat) (le : Option String),
      attempt + remaining = maxRetries → 0 < remaining →
      fetchWithRetryGo attempts maxRetries baseDelay remaining attempt le =
        ⟨.thrown "HTTP 503", maxRetries,
         (List.range' attempt (maxRetries - 1 - attempt)).map
           fun k => baseDelay * 2 ^ k⟩ := by
  intro remaining
  induction remaining with
  | zero => intro attempt le _ h0; exact absurd h0 (by simp)
  | succ r ih =>
    intro attempt le hinv _
    obtain ⟨b, hb⟩ := h attempt
    rw [fetchWithRetryGo_step503 attempts maxRetries baseDelay r attempt le b hb]
    cases r with
    | zero =>
      have hlast : ¬(attempt < maxRetries - 1) := by omega
      have hn : maxRetries - 1 - attempt = 0 := by omega
      have hatt : attempt + 1 = maxRetries := by omega
      simp only [fetchWithRetryGo, stepDelay, if_neg hlast, Option.getD_some,
        List.nil_append, hn, List.range'_zero, List.map_nil, hatt]
    | succ r' =>
      have hstep : attempt < maxRetries - 1 := by omega
      rw [ih (attempt + 1) (some "HTTP 503") (by omega) (by omega)]
      simp only [stepDelay, if_pos hstep]
      have hn : maxRetries - 1 - attempt = (maxRetries - 1 - (attempt + 1)) + 1 := by omega
      rw [hn, List.range'_succ]
      rfl

/-- Claim C3: a URL answering HTTP 503 on every attempt exhausts the loop —
exactly `maxRetries` fetch attempts, a backoff delay of
`baseDelay * 2 ^ k` before retry `k` (so delays `baseDelay, 2·baseDelay,
4·baseDelay, …`), and a terminal failure carrying the last observed
`HTTP 503` error. -/
theorem claim_C3_all503 (attempts : Nat → AttemptResult) (maxRetries baseDelay : Nat)
    (hm : 0 < maxRetries) (h : ∀ k, ∃ b, attempts k = .response 503 b) :
    fetchWithRetry attempts maxRetries baseDelay =
      ⟨.thrown "HTTP 503", maxRetries,
       (List.range (maxRetries - 1)).map fun k => baseDelay * 2 ^ k⟩ := by
  rw [fetchWithRetry,
    fetchWithRetryGo_all503 attempts maxRetries baseDelay h maxRetries 0 none
      (by omega) hm]
  rw [List.range_eq_range']
  exact congrArg _ (by rw [Nat.sub_zero])

/-- Witness for claim C3 at the default parameters: `maxRetries = 3`,
`baseDelay = 1000` give attempts 3 and delays 1000 ms then 2000 ms. -/
theorem claim_C3_witness :
    fetchWithRetry (fun _ => .response 503 "oops") 3 1000 =
      ⟨.thrown "HTTP 503", 3, [1000, 2000]⟩ := by
  have h := claim_C3_all503 (fun _ => .response 503 "oops") 3 1000 (by decide)
    (fun k => ⟨"oops", rfl⟩)
  simpa using h

/-- Claim C4: a timeout on the first attempt is terminal — the error is
rethrown from the `catch` without another attempt and without any backoff
delay.  (The code detects a timeout by the error message containing
"timeout", which is how `AbortSignal.timeout(15000)`'s error reads.) -/
theorem claim_C4_timeout_terminal (attempts : Nat → AttemptResult)
    (maxRetries baseDelay : Nat) (msg : String) (hm : 0 < maxRetries)
    (h0 : attempts 0 = .failure msg) (ht : containsTimeout msg = true) :
    fetchWithRetry attempts maxRetries baseDelay = ⟨.thrown msg, 1, []⟩ := by
  cases maxRetries with
  | zero => exact absurd hm (by simp)
  | succ r =>
    simp only [fetchWithRetry, fetchWithRetryGo, h0, tryBody, ht, if_pos]

/-- Witness for claim C4: the Node timeout error message on every attempt;
exactly one attempt, no delays. -/
theorem claim_C4_witness :
    fetchWithRetry (fun _ => .failure "The operation was aborted due to timeout") 3 1000 =
      ⟨.thrown "The operation was aborted due to timeout", 1, []⟩ :=
  claim_C4_timeout_terminal _ 3 1000 _ (by decide) rfl (by decide)

/-- Claim C2 (the code contradicts it): a URL answering HTTP 404 to every
attempt is retried anyway.  The `throw new Error("HTTP 404")` meant to make
client errors terminal sits inside the `try` block, so the function's own
`catch` swallows it, and since "HTTP 404" does not contain "timeout" the
loop proceeds to backoff and retry: three attempts are made with delays of
1000 ms and 2000 ms before the terminal `HTTP 404` failure — not the single
attempt with no delay that the code's comment ("Don't retry on client
errors (4xx) except 429") and the spec describe. -/
theorem claim_C2_404_is_retried :
    fetchWithRetry (fun _ => .response 404 "") 3 1000 =
      ⟨.thrown "HTTP 404", 3, [1000, 2000]⟩ := by decide

/-! ## Lemmas about the word count -/

/-- The number of split pieces does not depend on the accumulated current
piece, only on the scanner position and state. -/
theorem jsPieces_length (l : List Char) :
    ∀ (b : Bool) (acc : List Char), (jsPieces l b acc).length = pieceCount l b := by
  induction l with
  | nil => intro b acc; rfl
  | cons c rest ih =>
    intro b acc
    by_cases hw : c.isWhitespace
    · cases b <;> simp [jsPieces, pieceCount, hw, ih] <;> omega
    · simp [jsPieces, pieceCount, hw, ih]

/-- Dropping the head of a two-element-or-longer list keeps the last
element, hence `lastNonWs`. -/
theorem lastNonWs_cons (c : Char) (rest : List Char) (hr : rest ≠ []) :
    lastNonWs (c :: rest) = lastNonWs rest := by
  cases rest with
  | nil => exact absurd rfl hr
  | cons d t => simp [lastNonWs]

/-- Duality of piece count and token count on character lists that end in a
non-whitespace character: scanning outside a whitespace run yields one piece
more than the tokens still to come, scanning inside a whitespace run yields
exactly the tokens still to come. -/
theorem pieceCount_tokenCount (l : List Char) :
    ((l = [] ∨ lastNonWs l = true) → pieceCount l false = tokenCountGo l true + 1) ∧
    (lastNonWs l = true → pieceCount l true = tokenCountGo l false) := by
  induction l with
  | nil =>
    refine ⟨fun _ => rfl, fun h => ?_⟩
    simp [lastNonWs] at h
  | cons c rest ih =>
    constructor
    · intro hor
      have hl : lastNonWs (c :: rest) = true := by
        rcases hor with h | h
        · exact absurd h (by simp)
        · exact h
      by_cases hw : c.isWhitespace
      · have hr : rest ≠ [] := by
          intro he
          subst he
          simp [lastNonWs, hw] at hl
        rw [lastNonWs_cons c rest hr] at hl
        have h2 := ih.2 hl
        simp [pieceCount, tokenCountGo, hw, h2]
        omega
      · have h1 : pieceCount rest false = tokenCountGo rest true + 1 := by
          refine ih.1 ?_
          cases rest with
          | nil => exact Or.inl rfl
          | cons d t => exact Or.inr ((lastNonWs_cons c (d :: t) (by simp)) ▸ hl)
        simp [pieceCount, tokenCountGo, hw, h1]
    · intro hl
      by_cases hw : c.isWhitespace
      · have hr : rest ≠ [] := by
          intro he
          subst he
          simp [lastNonWs, hw] at hl
        rw [lastNonWs_cons c rest hr] at hl
        have h2 := ih.2 hl
        simp [pieceCount, tokenCountGo, hw, h2]
      · have h1 : pieceCount rest false = tokenCountGo rest true + 1 := by
          refine ih.1 ?_
          cases rest with
          | nil => exact Or.inl rfl
          | cons d t => exact Or.inr ((lastNonWs_cons c (d :: t) (by simp)) ▸ hl)
        simp [pieceCount, tokenCountGo, hw, h1]
        omega

/-- On trimmed nonempty text (first and last characters not whitespace, the
shape every extractor output has) the JavaScript split length equals the
number of whitespace-separated tokens. -/
theorem wordCountJS_eq_specTokenCount (s : String) (h1 : headNonWs s = true)
    (h2 : lastNonWsStr s = true) : wordCountJS s = specTokenCount s := by
  unfold wordCountJS specTokenCount
  rw [jsPieces_length]
  rcases hd : s.data with _ | ⟨c, rest⟩
  · rw [headNonWs, hd] at h1
    exact absurd h1 (by simp)
  · have hw : ¬c.isWhitespace = true := by
      rw [headNonWs, hd] at h1
      simpa using h1
    rw [lastNonWsStr, hd] at h2
    have h1 : pieceCount rest false = tokenCountGo rest true + 1 := by
      refine (pieceCount_tokenCount rest).1 ?_
      cases rest with
      | nil => exact Or.inl rfl
      | cons d t => exact Or.inr ((lastNonWs_cons c (d :: t) (by simp)) ▸ h2)
    simp [pieceCount, tokenCountGo, hw, h1]
    omega

/-- The success branch of `fetchUrl` in closed form. -/
theorem fetchUrl_ok (env : FetchEnv) (url : String) (m : Nat) (body : String)
    (h : (fetchWithRetry env.attempts).result = .ok body) :
    fetchUrl env url m =
      ⟨url, env.titleOf body,
       (if (env.extractOf body url).length > m then
          jsSubstring (env.extractOf body url) m ++ truncMarker
        else env.extractOf body url),
       true, none, some (wordCountJS (env.extractOf body url))⟩ := by
  unfold fetchUrl
  rw [h]

/-- The failure branch of `fetchUrl` in closed form. -/
theorem fetchUrl_thrown (env : FetchEnv) (url : String) (m : Nat) (msg : String)
    (h : (fetchWithRetry env.attempts).result = .thrown msg) :
    fetchUrl env url m = ⟨url, "", "", false, some msg, none⟩ := by
  unfold fetchUrl
  rw [h]

/-- Environment whose fetch succeeds but whose extracted article text is
empty (the degradation ladder's last rung: nothing usable on the page). -/
def envEmptyText : FetchEnv :=
  ⟨fun _ => .response 200 "<html></html>", fun _ => "", fun _ _ => ""⟩

/-- Counterexample to claim C6 as stated: a successful fetch whose extracted
text is the empty string records `wordCount = 1` (JavaScript
`"".split(/\s+/)` is `[""]`, of length 1), while the number of
whitespace-separated tokens of the extracted text is 0. -/
theorem claim_C6_counterexample :
    (fetchUrl envEmptyText "https://x").success = true ∧
    (fetchUrl envEmptyText "https://x").content = "" ∧
    specTokenCount "" = 0 ∧
    (fetchUrl envEmptyText "https://x").wordCount ≠ some (specTokenCount "") := by
  decide

/-- Claim C6 as amended: the recorded `wordCount` is the length of the
JavaScript whitespace split of the extracted text, computed before
truncation — it does not depend on `maxLength` at all — and on nonempty
extracted text with no leading or trailing whitespace (the shape the
extractors emit) that split length is exactly the number of
whitespace-separated tokens; on empty extracted text it is 1, not 0. -/
theorem claim_C6_amended (env : FetchEnv) (url : String) (m₁ m₂ : Nat) :
    (fetchUrl env url m₁).wordCount = (fetchUrl env url m₂).wordCount ∧
    (∀ body, (fetchWithRetry env.attempts).result = .ok body →
      (fetchUrl env url m₁).wordCount = some (wordCountJS (env.extractOf body url))) ∧
    (∀ text : String, headNonWs text = true → lastNonWsStr text = true →
      wordCountJS text = specTokenCount text) ∧
    wordCountJS "" = 1 := by
  refine ⟨?_, ?_, fun text h1 h2 => wordCountJS_eq_specTokenCount text h1 h2, rfl⟩
  · rcases hr : (fetchWithRetry env.attempts).result with body | msg
    · rw [fetchUrl_ok env url m₁ body hr, fetchUrl_ok env url m₂ body hr]
    · rw [fetchUrl_thrown env url m₁ msg hr, fetchUrl_thrown env url m₂ msg hr]
  · intro body hb
    rw [fetchUrl_ok env url m₁ body hb]

/-- Witness for claim C6 (amended) at concrete inputs: truncation to 3
characters does not change the recorded word count, which equals the token
count of the nonempty trimmed text "hello world there". -/
theorem claim_C6_witness :
    (fetchUrl ⟨fun _ => .response 200 "b", fun _ => "T", fun _ _ => "hello world there"⟩
        "u" 3).wordCount =
      (fetchUrl ⟨fun _ => .response 200 "b", fun _ => "T", fun _ _ => "hello world there"⟩
        "u" 100000).wordCount ∧
    (fetchUrl ⟨fun _ => .response 200 "b", fun _ => "T", fun _ _ => "hello world there"⟩
        "u" 3).content = "hel" ++ truncMarker ∧
    wordCountJS "hello world there" = specTokenCount "hello world there" ∧
    specTokenCount "hello world there" = 3 := by
  refine ⟨(claim_C6_amended _ "u" 3 100000).1, by decide,
    (claim_C6_amended ⟨fun _ => .response 200 "b", fun _ => "T",
      fun _ _ => "hello world there"⟩ "u" 3 100000).2.2.1 "hello world there"
      (by decide) (by decide), by decide⟩

/-! ## Lemmas about the report assembler -/

/-- Taking `n` characters of a string at least `n` long yields exactly `n`
characters. -/
theorem jsSubstring_length (s : String) (n : Nat) (h : n ≤ s.length) :
    (jsSubstring s n).length = n := by
  have h1 : (jsSubstring s n).length = (s.data.take n).length := rfl
  have h2 : n ≤ s.data.length := h
  rw [h1, List.length_take]
  omega

/-- A string of positive length is not the empty string (as the `Bool`-valued
JavaScript truthiness test). -/
theorem bne_empty_of_length_pos (s : String) (h : 0 < s.length) : (s != "") = true := by
  simp only [bne_iff_ne, ne_eq]
  intro he
  subst he
  simp at h

/-- Claim C7: content longer than `maxContentPerPage` is emitted as exactly
its first `maxContentPerPage` characters followed by the truncation marker
(so never more than `maxContentPerPage` characters of content), and that is
exactly what the assembled report's section for a successful fetch carries;
content not exceeding the limit is emitted unchanged. -/
theorem claim_C7_truncation (content : String) (maxC : Nat) :
    (content.length > maxC →
      displayedContent content maxC = jsSubstring content maxC ++ truncMarker ∧
      (jsSubstring content maxC).length = maxC ∧
      ∀ (i : Nat) (search : SearchResult) (f : FetchedContent),
        f.success = true → f.content = content →
        resultSection i search (some f) maxC =
          sectionHeader i search ++
            ("### Full Page Content:\n\n" ++ displayedContent content maxC ++ "\n\n") ++
            "---\n\n") ∧
    (content.length ≤ maxC → displayedContent content maxC = content) := by
  constructor
  · intro h
    refine ⟨by rw [displayedContent, if_pos h],
      jsSubstring_length content maxC (Nat.le_of_lt h), ?_⟩
    intro i search f hs hc
    have hcne : content ≠ "" := by
      intro he
      rw [he] at h
      exact Nat.not_lt_zero maxC h
    simp [resultSection, sectionBody, hs, hc, hcne]
  · intro h
    rw [displayedContent, if_neg (by omega)]

/-- Witness for claim C7 at concrete inputs: five characters against a
three-character budget, and two characters against the same budget. -/
theorem claim_C7_witness :
    displayedContent "abcde" 3 = "abc" ++ truncMarker ∧
    (jsSubstring "abcde" 3).length = 3 ∧
    resultSection 0 dummySearch (some ⟨"u", "t", "abcde", true, none, some 1⟩) 3 =
      sectionHeader 0 dummySearch ++
        ("### Full Page Content:\n\n" ++ displayedContent "abcde" 3 ++ "\n\n") ++
        "---\n\n" ∧
    displayedContent "ab" 3 = "ab" := by
  have h := claim_C7_truncation "abcde" 3
  have h5 : ("abcde" : String).length > 3 := by decide
  exact ⟨(h.1 h5).1, (h.1 h5).2.1,
    (h.1 h5).2.2 0 dummySearch ⟨"u", "t", "abcde", true, none, some 1⟩ rfl rfl,
    (claim_C7_truncation "ab" 3).2 (by decide)⟩

/-- Claim C10: a successful fetch whose content is the empty string gets
neither a page-content section nor a failure notice nor a snippet fallback:
its section is exactly the header part (number, title, URL, optional date)
followed by the separator.  (A success record from `fetchUrl` always has
`error = none`, so the `else if (fetched?.error)` arm cannot fire.) -/
theorem claim_C10_empty_success (env : FetchEnv) (url : String) (m i maxC : Nat)
    (search : SearchResult) (hs : (fetchUrl env url m).success = true)
    (hc : (fetchUrl env url m).content = "") :
    resultSection i search (some (fetchUrl env url m)) maxC =
      sectionHeader i search ++ "---\n\n" := by
  rcases hr : (fetchWithRetry env.attempts).result with body | msg
  · rw [fetchUrl_ok env url m body hr] at hc ⊢
    have hc2 : (if (env.extractOf body url).length > m then
        jsSubstring (env.extractOf body url) m ++ truncMarker
      else env.extractOf body url) = "" := hc
    simp [resultSection, sectionBody, hc2]
  · rw [fetchUrl_thrown env url m msg hr] at hs
    simp at hs

/-- Witness for claim C10: a successful fetch of a page extracting to no
text at all. -/
theorem claim_C10_witness :
    resultSection 0 dummySearch (some (fetchUrl envEmptyText "https://x" 100000)) 50000 =
      sectionHeader 0 dummySearch ++ "---\n\n" :=
  claim_C10_empty_success envEmptyText "https://x" 100000 0 50000 dummySearch
    (by decide) (by decide)

/-! ## Substring occurrence, for locating pieces of the report -/

/-- `needle` occurs as a contiguous substring of `haystack`. -/
def occursIn (needle haystack : String) : Prop :=
  ∃ pre post, haystack = pre ++ needle ++ post

/-- Every string occurs in itself. -/
theorem occursIn_self (n : String) : occursIn n n :=
  ⟨"", "", by simp⟩

/-- Occurrence is preserved by appending on the right. -/
theorem occursIn_append_left (n a b : String) (h : occursIn n a) :
    occursIn n (a ++ b) := by
  obtain ⟨p, q, rfl⟩ := h
  exact ⟨p, q ++ b, String.append_assoc (p ++ n) q b⟩

/-- Occurrence is preserved by appending on the left. -/
theorem occursIn_append_right (n a b : String) (h : occursIn n b) :
    occursIn n (a ++ b) := by
  obtain ⟨p, q, rfl⟩ := h
  refine ⟨a ++ p, q, ?_⟩
  rw [← String.append_assoc a (p ++ n) q, ← String.append_assoc a p n]

/-- Occurrence in a member propagates to the concatenation. -/
theorem occursIn_concatAll (n s : String) (l : List String) (hs : s ∈ l)
    (h : occursIn n s) : occursIn n (concatAll l) := by
  induction l with
  | nil => simp at hs
  | cons a t ih =>
    rcases List.mem_cons.mp hs with rfl | hmem
    · exact occursIn_append_left n s (concatAll t) h
    · exact occursIn_append_right n a (concatAll t) (ih hmem)

/-- No successful record, no counted success. -/
theorem successCount_zero (fetchedContents : List FetchedContent)
    (h : ∀ f ∈ fetchedContents, f.success = false) :
    successCount fetchedContents = 0 := by
  unfold successCount
  rw [List.length_eq_zero, List.filter_eq_nil_iff]
  intro f hf
  simp [h f hf]

/-- Claim C8: when every outcome of the batch is a failure (with the reason
string the fetcher always records), the assembled report's header counts 0
successful fetches, and the section of every result carries the inline
failure notice together with that result's original search snippet. -/
theorem claim_C8_all_failed (query : String) (searchResults : List SearchResult)
    (fetchedContents : List FetchedContent) (maxC : Nat) (searchType : String)
    (i : Nat) (hi : i < searchResults.length)
    (hlen : fetchedContents.length = searchResults.length)
    (hfail : ∀ f ∈ fetchedContents, f.success = false)
    (herr : ∀ f ∈ fetchedContents, f.error.getD "" ≠ "") :
    successCount fetchedContents = 0 ∧
    occursIn (resultsLine searchResults.length 0)
      (formatResponse query searchResults fetchedContents maxC searchType) ∧
    occursIn
      (failureNotice ((fetchedContents.getD i dummyFetched).error.getD "")
        (searchResults.getD i dummySearch).snippet)
      (formatResponse query searchResults fetchedContents maxC searchType) := by
  have h0 : successCount fetchedContents = 0 := successCount_zero fetchedContents hfail
  refine ⟨h0, ?_, ?_⟩
  · unfold formatResponse
    rw [h0]
    apply occursIn_append_left
    apply occursIn_append_left
    apply occursIn_append_left
    apply occursIn_append_left
    apply occursIn_append_left
    apply occursIn_append_right
    exact occursIn_self _
  · have hif : i < fetchedContents.length := by omega
    have hgd : fetchedContents.getD i dummyFetched = fetchedContents[i] := by
      rw [List.getD_eq_getElem?_getD, List.getElem?_eq_getElem hif]
      rfl
    have hmem : fetchedContents[i] ∈ fetchedContents := List.getElem_mem hif
    obtain ⟨e, hfe, hene⟩ : ∃ e, fetchedContents[i].error = some e ∧ e ≠ "" := by
      have := herr fetchedContents[i] hmem
      cases hfe : fetchedContents[i].error with
      | none => rw [hfe] at this; simp at this
      | some e => rw [hfe] at this; exact ⟨e, rfl, by simpa using this⟩
    have hsb : sectionBody (searchResults.getD i dummySearch) fetchedContents[i]? maxC =
        failureNotice e (searchResults.getD i dummySearch).snippet := by
      rw [List.getElem?_eq_getElem hif]
      have hsf : fetchedContents[i].success = false := hfail fetchedContents[i] hmem
      simp [sectionBody, hsf, hfe, hene]
    have hsec : occursIn
        (failureNotice e (searchResults.getD i dummySearch).snippet)
        (resultSection i (searchResults.getD i dummySearch) fetchedContents[i]? maxC) :=
      ⟨sectionHeader i (searchResults.getD i dummySearch), "---\n\n", by
        rw [resultSection, hsb]⟩
    have hmemsec : resultSection i (searchResults.getD i dummySearch)
        fetchedContents[i]? maxC ∈
        (List.range searchResults.length).map fun j =>
          resultSection j (searchResults.getD j dummySearch) fetchedContents[j]? maxC :=
      List.mem_map_of_mem _ (List.mem_range.mpr hi)
    rw [hgd, hfe]
    unfold formatResponse
    apply occursIn_append_right
    exact occursIn_concatAll _ _ _ hmemsec hsec

/-- A one-element all-failed batch and its matching search result, for the
claim C8 witness. -/
def failedBatch : List FetchedContent :=
  [⟨"https://a", "", "", false, some "HTTP 503", none⟩]

/-- The search result aligned with `failedBatch`. -/
def oneResult : List SearchResult := [⟨"Title", "https://a", "snippet text", 1, none⟩]

/-- Witness for claim C8 on the concrete all-failed batch. -/
theorem claim_C8_witness :
    successCount failedBatch = 0 ∧
    occursIn (resultsLine 1 0) (formatResponse "q" oneResult failedBatch 50000 "web") ∧
    occursIn (failureNotice "HTTP 503" "snippet text")
      (formatResponse "q" oneResult failedBatch 50000 "web") := by
  have h := claim_C8_all_failed "q" oneResult failedBatch 50000 "web" 0 (by decide)
    (by decide) (by decide) (by decide)
  exact ⟨h.1, h.2.1, h.2.2⟩

/-! ## The query builder -/

/-- Claim C9: `buildQuery` on query "cats" with include domains `a.com`,
`b.com` and exclude domain `c.com` produces exactly
`"cats site:a.com OR site:b.com -site:c.com"`; the second conjunct shows the
same output from padded domain lists, exercising the per-domain trim. -/
theorem claim_C9_buildQuery :
    buildQuery "cats" (some "a.com,b.com") (some "c.com") =
      "cats site:a.com OR site:b.com -site:c.com" ∧
    buildQuery "cats" (some " a.com , b.com") (some " c.com ") =
      "cats site:a.com OR site:b.com -site:c.com" := by decide

end DeepSearch
